import Mathlib

/-!
Shallow embedding of the MinedMap PNG mipmap core (src/src/PNG.cpp) and of the
NBT DoubleTag constructor (src/src/NBT/DoubleTag.hpp), with theorems settling
the specification claims about them.

Buffers are modelled as total functions from byte index to byte value
(`Nat → Nat`); the imperative write loops become left folds of a `store`
(pointwise function update) over the loop's iteration sequence, in source
order.  The PNG container produced by libpng is modelled abstractly (the spec
declares the codec lossless and deterministic): a `PNGFile` records exactly
the header fields the source inspects plus the raw rows it emits/copies.
-/

set_option linter.unusedVariables false

namespace MinedMap
namespace PNG

/-- Bytes per pixel: `colored ? 4 : 2` (src/src/PNG.cpp lines 64, 69, 117, 127, 143). -/
def bytesPerPixel (colored : Bool) : Nat :=
  if colored then 4 else 2

/-- PNG color-type constant chosen by the source: `PNG_COLOR_TYPE_RGB_ALPHA` (6) when
colored, `PNG_COLOR_TYPE_GRAY_ALPHA` (4) otherwise (src/src/PNG.cpp lines 64, 112). -/
def colorTypeOf (colored : Bool) : Nat :=
  if colored then 6 else 4

/-- Abstract PNG file: the header fields the source reads or writes
(width, height, bit depth, color type) and the decoded/encoded pixel rows.
The container itself is modelled from the spec, which fixes the codec as
lossless and deterministic; libpng is not part of this repository. -/
structure PNGFile where
  width : Nat
  height : Nat
  bitDepth : Nat
  colorType : Nat
  rows : List (List Nat)

/-- Encoder `write` (src/src/PNG.cpp lines 41-76): emits an 8-bit-depth header with
the selected color type and one row per scanline, row `i` taken verbatim from
`data[(colored ? 4 : 2) * i * width ...]`, `bytesPerPixel * width` bytes long. -/
def write (data : Nat → Nat) (width height : Nat) (colored : Bool) : PNGFile :=
  { width := width
    height := height
    bitDepth := 8
    colorType := colorTypeOf colored
    rows := (List.range height).map fun i =>
      (List.range (bytesPerPixel colored * width)).map fun k =>
        data (bytesPerPixel colored * i * width + k) }

/-- Decoder `read` (src/src/PNG.cpp lines 78-121): after decoding, checks the image
width, height, bit depth (must be 8) and color type against the request
(lines 109-113); any mismatch longjmps into the error path, which throws —
modelled as `none`.  On success it memcpys row `i` into
`data[(colored ? 4 : 2) * i * width ...]` (lines 115-117), so byte `j` of the
output comes from row `j / (bytesPerPixel * width)` at offset
`j % (bytesPerPixel * width)`. -/
def read (f : PNGFile) (width height : Nat) (colored : Bool) : Option (Nat → Nat) :=
  if f.width ≠ width ∨ f.height ≠ height ∨ f.bitDepth ≠ 8 ∨ f.colorType ≠ colorTypeOf colored then
    none
  else
    some fun j =>
      (f.rows.getD (j / (bytesPerPixel colored * width)) []).getD
        (j % (bytesPerPixel colored * width)) 0

/-- Pointwise update of a byte buffer modelled as a function. -/
def store (d : Nat → Nat) (i v : Nat) : Nat → Nat :=
  fun j => if j = i then v else d j

/-- Destination index of the downsampling loop body (src/src/PNG.cpp line 136):
`b*(width*(offset_h+h) + offset_w+w) + c` for the triple `t = (h, w, c)`. -/
def targetIdx (b width offset_w offset_h : Nat) (t : Nat × Nat × Nat) : Nat :=
  b * (width * (offset_h + t.1) + offset_w + t.2.1) + t.2.2

/-- Source index `i` of the downsampling loop body (src/src/PNG.cpp line 135):
`i = 2*b*(width*h + w) + c` for the triple `t = (h, w, c)`. -/
def srcIdx (b width : Nat) (t : Nat × Nat × Nat) : Nat :=
  2 * b * (width * t.1 + t.2.1) + t.2.2

/-- Value written by the downsampling loop body (src/src/PNG.cpp line 136):
`(input[i] + input[i+b] + input[i+b*width] + input[i+b*width+b]) / 4`, stored
into a `uint8_t`, hence reduced mod 256 (the intermediate sum is computed in
`int`, exactly). -/
def writeVal (input : Nat → Nat) (b width : Nat) (t : Nat × Nat × Nat) : Nat :=
  (input (srcIdx b width t) + input (srcIdx b width t + b)
    + input (srcIdx b width t + b * width) + input (srcIdx b width t + b * width + b)) / 4 % 256

/-- One iteration of the downsampling loop body: store the averaged value at the
destination index (src/src/PNG.cpp line 136). -/
def scaleStep (input : Nat → Nat) (b width offset_w offset_h : Nat)
    (d : Nat → Nat) (t : Nat × Nat × Nat) : Nat → Nat :=
  store d (targetIdx b width offset_w offset_h t) (writeVal input b width t)

/-- Iteration sequence of the three nested loops of `readScaled`
(src/src/PNG.cpp lines 132-134), in source order: note that BOTH the row loop
`h` and the column loop `w` run to `width/2` in the source. -/
def tripleList (width b : Nat) : List (Nat × Nat × Nat) :=
  (List.range (width / 2)).flatMap fun h =>
    (List.range (width / 2)).flatMap fun w =>
      (List.range b).map fun c => (h, w, c)

/-- `readScaled` (src/src/PNG.cpp lines 123-140).  A `none` file is a no-op
(line 124-125).  Otherwise the child tile is decoded into `input` and the
nested loops store the 2x2 box average of `input` into the parent buffer at
the quadrant offset.  `input` here is the already-decoded child buffer (the
decode itself is `read`, modelled above); `height` is received but — exactly
as in the source loop bounds — not used by the loops. -/
def readScaled (data : Nat → Nat) (offset_w offset_h : Nat) (file : Option (Nat → Nat))
    (width height : Nat) (colored : Bool) : Nat → Nat :=
  match file with
  | none => data
  | some input =>
      (tripleList width (bytesPerPixel colored)).foldl
        (scaleStep input (bytesPerPixel colored) width offset_w offset_h) data

/-- All child-buffer indices read by the `readScaled` loops for the given
`width` and bytes-per-pixel `b` (the four reads of src/src/PNG.cpp line 136). -/
def readScaledSrcAccesses (width b : Nat) : List Nat :=
  (tripleList width b).flatMap fun t =>
    [srcIdx b width t, srcIdx b width t + b,
     srcIdx b width t + b * width, srcIdx b width t + b * width + b]

/-- The zero-filled parent buffer (src/src/PNG.cpp lines 144-145: memset 0). -/
def zeroData : Nat → Nat :=
  fun _ => 0

/-- Parent-buffer contents computed by `mipmap` (src/src/PNG.cpp lines 142-150):
zero-fill, then one `readScaled` pass per quadrant at offsets
(0,0), (width/2,0), (0,height/2), (width/2,height/2).  Each child argument is
the decoded child buffer, or `none` for an absent child path. -/
def mipmapData (width height : Nat) (colored : Bool)
    (nw ne sw se : Option (Nat → Nat)) : Nat → Nat :=
  let d1 := readScaled zeroData 0 0 nw width height colored
  let d2 := readScaled d1 (width / 2) 0 ne width height colored
  let d3 := readScaled d2 0 (height / 2) sw width height colored
  readScaled d3 (width / 2) (height / 2) se width height colored

/-- `mipmap` (src/src/PNG.cpp lines 142-153): compose the four quadrants and
encode the finished parent buffer; the returned `PNGFile` is the file written
to the output path. -/
def mipmap (width height : Nat) (colored : Bool)
    (nw ne sw se : Option (Nat → Nat)) : PNGFile :=
  write (mipmapData width height colored nw ne sw se) width height colored

/-- Failure oracle for one codec call: which of the fallible steps of
`read`/`write` (src/src/PNG.cpp) succeed.  `openOk` is `fopen`,
`createStructOk` is `png_create_read_struct`/`png_create_write_struct`,
`createInfoOk` is the first `png_create_info_struct`, `createEndInfoOk` is the
second one (read only), and `bodyOk` is the setjmp-guarded libpng body
(including the validation of lines 109-113). -/
structure CodecEnv where
  openOk : Bool
  createStructOk : Bool
  createInfoOk : Bool
  createEndInfoOk : Bool
  bodyOk : Bool

/-- Observable outcome of one codec call for the resource-lifecycle claims:
whether `fopen` succeeded (a handle was opened), whether `fclose` was reached
on the taken path, and whether the call returned normally. -/
structure CodecResult where
  opened : Bool
  closed : Bool
  ok : Bool

/-- Control flow of `write` (src/src/PNG.cpp lines 41-76) with respect to the
`FILE*` handle: after a successful `fopen`, the `png_create_write_struct` and
`png_create_info_struct` failure paths (lines 47-48, 51-54) throw WITHOUT
calling `fclose(f)`; the setjmp error path (lines 56-60) and the success path
(lines 74-75) do close it. -/
def writeFlow (env : CodecEnv) : CodecResult :=
  if !env.openOk then ⟨false, false, false⟩
  else if !env.createStructOk then ⟨true, false, false⟩
  else if !env.createInfoOk then ⟨true, false, false⟩
  else if !env.bodyOk then ⟨true, true, false⟩
  else ⟨true, true, true⟩

/-- Control flow of `read` (src/src/PNG.cpp lines 78-121) with respect to the
`FILE*` handle: after a successful `fopen`, the `png_create_read_struct` and
the two `png_create_info_struct` failure paths (lines 84-85, 88-91, 94-97)
throw WITHOUT calling `fclose(f)`; the setjmp error path (lines 99-103) and
the success path (lines 119-120) do close it. -/
def readFlow (env : CodecEnv) : CodecResult :=
  if !env.openOk then ⟨false, false, false⟩
  else if !env.createStructOk then ⟨true, false, false⟩
  else if !env.createInfoOk then ⟨true, false, false⟩
  else if !env.createEndInfoOk then ⟨true, false, false⟩
  else if !env.bodyOk then ⟨true, true, false⟩
  else ⟨true, true, true⟩

end PNG

namespace NBT

/-- Modelled from the spec: the byte-cursor `Buffer` (its header is not under
src/; only `DoubleTag.hpp` is).  Per spec section 6, a fixed-size read of `n`
bytes either succeeds, returning the bytes and advancing the cursor by `n`,
or fails on cursor underrun. -/
structure Buffer where
  data : List Nat
  pos : Nat

/-- Modelled from the spec: `Buffer::get(n)` — succeed returning `n` bytes and
the advanced cursor when `n` bytes remain, fail on underrun. -/
def Buffer.get (buf : Buffer) (n : Nat) : Option (List Nat × Buffer) :=
  if buf.pos + n ≤ buf.data.length then
    some ((buf.data.drop buf.pos).take n, ⟨buf.data, buf.pos + n⟩)
  else
    none

/-- A constructed `DoubleTag` holds the 8 raw bytes its `ptr` points at
(src/src/NBT/DoubleTag.hpp lines 35-45). -/
structure DoubleTag where
  ptr : List Nat

/-- The `DoubleTag` constructor (src/src/NBT/DoubleTag.hpp lines 43-45):
`ptr = buffer->get(8)` — a single fixed-size read of exactly 8 bytes. -/
def DoubleTag.construct (buf : Buffer) : Option (DoubleTag × Buffer) :=
  match buf.get 8 with
  | some (p, b) => some (⟨p⟩, b)
  | none => none

end NBT
end MinedMap

namespace MinedMap.PNG

/-- A store hits its own index. -/
theorem store_self (d : Nat → Nat) (j v : Nat) : store d j v j = v := by
  simp [store]

/-- Stores at distinct indices commute. -/
theorem store_comm (d : Nat → Nat) (i j u v : Nat) (h : i ≠ j) :
    store (store d j v) i u = store (store d i u) j v := by
  funext k
  by_cases h1 : k = i <;> by_cases h2 : k = j <;> simp_all [store]

/-- Running the downsampling loop over any iteration list on top of a store at
index `j` keeps value `v` at `j`, provided every iteration that hits `j`
writes that same value (the written value depends only on the child buffer,
never on the partially-written parent). -/
theorem foldl_scaleStep_dominated (input : Nat → Nat) (b width ow oh : Nat) :
    ∀ (L : List (Nat × Nat × Nat)) (d : Nat → Nat) (j v : Nat),
      (∀ t ∈ L, targetIdx b width ow oh t = j → writeVal input b width t = v) →
      (L.foldl (scaleStep input b width ow oh) (store d j v)) j = v := by
  intro L
  induction L with
  | nil =>
    intro d j v _
    simp [store]
  | cons a L ih =>
    intro d j v hv
    simp only [List.foldl_cons]
    by_cases ha : targetIdx b width ow oh a = j
    · have hval : writeVal input b width a = v := hv a (List.mem_cons_self a L) ha
      have hstep : scaleStep input b width ow oh (store d j v) a = store (store d j v) j v := by
        simp only [scaleStep, ha, hval]
      rw [hstep]
      exact ih (store d j v) j v (fun t ht => hv t (List.mem_cons_of_mem a ht))
    · have hstep : scaleStep input b width ow oh (store d j v) a
          = store (store d (targetIdx b width ow oh a) (writeVal input b width a)) j v := by
        simp only [scaleStep]
        exact store_comm d (targetIdx b width ow oh a) j (writeVal input b width a) v ha
      rw [hstep]
      exact ih _ j v (fun t ht => hv t (List.mem_cons_of_mem a ht))

/-- The iteration sequence of the `readScaled` loops contains exactly the
triples `(h, w, c)` with `h < width/2`, `w < width/2`, `c < b`. -/
theorem mem_tripleList {width b : Nat} {t : Nat × Nat × Nat} :
    t ∈ tripleList width b ↔ t.1 < width / 2 ∧ t.2.1 < width / 2 ∧ t.2.2 < b := by
  obtain ⟨h, w, c⟩ := t
  simp [tripleList, List.mem_flatMap, List.mem_map, List.mem_range, Prod.mk.injEq]
  constructor
  · rintro ⟨h1, hh1, w1, hw1, c1, hc1, rfl, rfl, rfl⟩
    exact ⟨hh1, hw1, hc1⟩
  · rintro ⟨hh, hw, hc⟩
    exact ⟨h, hh, w, hw, c, hc, rfl, rfl, rfl⟩

/-- On the loop's iteration domain (with the quadrant column offset at most
`width - width/2`), the destination index determines the triple: quadrant
writes of one pass never collide. -/
theorem targetIdx_inj {b width ow oh : Nat} (how : ow + width / 2 ≤ width)
    {t t2 : Nat × Nat × Nat}
    (ht : t.1 < width / 2 ∧ t.2.1 < width / 2 ∧ t.2.2 < b)
    (ht2 : t2.1 < width / 2 ∧ t2.2.1 < width / 2 ∧ t2.2.2 < b)
    (heq : targetIdx b width ow oh t2 = targetIdx b width ow oh t) : t2 = t := by
  obtain ⟨h, w, c⟩ := t
  obtain ⟨h2, w2, c2⟩ := t2
  obtain ⟨hh, hw, hc⟩ := ht
  obtain ⟨hh2, hw2, hc2⟩ := ht2
  dsimp only at hh hw hc hh2 hw2 hc2
  simp only [targetIdx] at heq
  have hb : 0 < b := by omega
  have hwidth : 0 < width := by omega
  have hcc : c2 = c := by
    have hmm := congrArg (fun x => x % b) heq
    simpa [Nat.mul_add_mod, Nat.mod_eq_of_lt hc, Nat.mod_eq_of_lt hc2] using hmm
  subst hcc
  have hA : b * (width * (oh + h2) + ow + w2) = b * (width * (oh + h) + ow + w) :=
    Nat.add_right_cancel heq
  have hA2 : width * (oh + h2) + (ow + w2) = width * (oh + h) + (ow + w) := by
    have := Nat.eq_of_mul_eq_mul_left hb hA
    omega
  have hcol : ow + w < width := by omega
  have hcol2 : ow + w2 < width := by omega
  have hcols : ow + w2 = ow + w := by
    have hmm := congrArg (fun x => x % width) hA2
    simpa [Nat.mul_add_mod, Nat.mod_eq_of_lt hcol, Nat.mod_eq_of_lt hcol2] using hmm
  have hrows : oh + h2 = oh + h := by
    have hdd := congrArg (fun x => x / width) hA2
    simpa [Nat.mul_add_div hwidth, Nat.div_eq_of_lt hcol, Nat.div_eq_of_lt hcol2] using hdd
  obtain rfl : w2 = w := by omega
  obtain rfl : h2 = h := by omega
  rfl

/-- The value the loop leaves at the destination index of an in-domain triple
is the value that triple writes (its write is never clobbered). -/
theorem foldl_scaleStep_last_write (input : Nat → Nat) (b width ow oh : Nat)
    (L : List (Nat × Nat × Nat)) (d : Nat → Nat) (t : Nat × Nat × Nat)
    (ht : t ∈ L)
    (huniq : ∀ t2 ∈ L, targetIdx b width ow oh t2 = targetIdx b width ow oh t →
      writeVal input b width t2 = writeVal input b width t) :
    (L.foldl (scaleStep input b width ow oh) d) (targetIdx b width ow oh t)
      = writeVal input b width t := by
  obtain ⟨L1, L2, rfl⟩ := List.append_of_mem ht
  rw [List.foldl_append]
  simp only [List.foldl_cons]
  have hstep : scaleStep input b width ow oh (L1.foldl (scaleStep input b width ow oh) d) t
      = store (L1.foldl (scaleStep input b width ow oh) d)
          (targetIdx b width ow oh t) (writeVal input b width t) := rfl
  rw [hstep]
  apply foldl_scaleStep_dominated
  intro t2 ht2 heq
  exact huniq t2 (by simp [List.mem_append, List.mem_cons, ht2]) heq

/-- Claim C1 (code_bug evaluation): the quadrant downsampler does NOT cover the
half-resolution quadrant for every even width and height.  At width 2,
height 4 (both even), with a present all-255 child in the NW quadrant, the
quadrant pixel at local coordinates (h, w) = (1, 0) — in range, since
1 < height/2 = 2 — is left at 0 in the parent buffer, although the box
average there is 255: the row loop of src/src/PNG.cpp line 132 runs to
`width/2`, not `height/2`. -/
theorem c1_row_loop_bug :
    readScaled zeroData 0 0 (some (fun _ => 255)) 2 4 false (targetIdx 2 2 0 0 (1, 0, 0)) = 0
    ∧ writeVal (fun _ => 255) 2 2 (1, 0, 0) = 255
    ∧ (1 : Nat) < 4 / 2 := by
  refine ⟨by decide, by decide, by decide⟩

/-- Claim C3 (code_bug evaluation): composing with only the NW child present at
width 2, height 4 (both even) leaves quadrant pixel (1, 0) — inside the NW
quadrant, since 1 < height/2 = 2 — at 0, although the box-filtered downsample
of the all-255 child is 255 there; the populated quadrant does not equal the
downsample of the child, because the row loop bound of src/src/PNG.cpp
line 132 is `width/2` instead of `height/2`. -/
theorem c3_quadrant_bug :
    mipmapData 2 4 false (some (fun _ => 255)) none none none (targetIdx 2 2 0 0 (1, 0, 0)) = 0
    ∧ writeVal (fun _ => 255) 2 2 (1, 0, 0) = 255 := by
  refine ⟨by decide, by decide⟩

/-- Claim C4: composing with all four children absent yields the all-zero
buffer for every (width, height, format) with even width and height; the
zero buffer is still encoded and written; and a downsample pass with an
absent child path is a no-op on the parent buffer. -/
theorem c4_empty_compose (width height : Nat) (colored : Bool)
    (hw : width % 2 = 0) (hh : height % 2 = 0) :
    (∀ j, mipmapData width height colored none none none none j = 0)
    ∧ mipmap width height colored none none none none = write zeroData width height colored
    ∧ (∀ d ow oh, readScaled d ow oh none width height colored = d) :=
  ⟨fun _ => rfl, rfl, fun _ _ _ => rfl⟩

/-- Witness for C4 at width = 2, height = 2, grayscale. -/
theorem c4_empty_compose_witness :
    mipmapData 2 2 false none none none none 3 = 0 :=
  (c4_empty_compose 2 2 false rfl rfl).1 3

/-- Claim C5: whenever the decoded image's width, height, bit depth or color
layout does not match the request, `read` fails (the validation of
src/src/PNG.cpp lines 109-113 longjmps into the error path, which throws);
no buffer is ever returned on a mismatch — no rescaling or coercion. -/
theorem c5_validation_reject (f : PNGFile) (width height : Nat) (colored : Bool)
    (hmis : f.width ≠ width ∨ f.height ≠ height ∨ f.bitDepth ≠ 8
      ∨ f.colorType ≠ colorTypeOf colored) :
    read f width height colored = none := by
  simp only [read]
  rw [if_pos hmis]

/-- Witness for C5: a 1x1 grayscale-alpha file decoded with requested width 2. -/
theorem c5_validation_reject_witness :
    read ⟨1, 1, 8, 4, []⟩ 2 1 false = none :=
  c5_validation_reject ⟨1, 1, 8, 4, []⟩ 2 1 false (Or.inl (by decide))

/-- Claim C7 (code_bug evaluation): when `fopen` succeeds but
`png_create_read_struct` / `png_create_write_struct` fails, both `read` and
`write` throw while the opened `FILE*` is never closed (src/src/PNG.cpp
lines 47-48 and 84-85 throw without `fclose(f)`), contradicting the claim
that every exit path closes the handle. -/
theorem c7_handle_leak :
    (readFlow ⟨true, false, true, true, true⟩).opened = true
    ∧ (readFlow ⟨true, false, true, true, true⟩).closed = false
    ∧ (writeFlow ⟨true, false, true, true, true⟩).opened = true
    ∧ (writeFlow ⟨true, false, true, true, true⟩).closed = false :=
  ⟨rfl, rfl, rfl, rfl⟩

/-- Claim C9 (code_bug evaluation): at width 4, height 2 (both even), the
downsampling loops access the child buffer out of bounds: index 31 is read
while the child allocation is `bytesPerPixel * width * height = 16` bytes,
and the SW-quadrant pass writes parent index 16, also past the 16-byte
parent allocation — again because the row loop runs to `width/2` instead of
`height/2`. -/
theorem c9_oob_access :
    (∃ i, i ∈ readScaledSrcAccesses 4 2 ∧ bytesPerPixel false * 4 * 2 ≤ i)
    ∧ bytesPerPixel false * 4 * 2 ≤ targetIdx 2 4 0 1 (1, 0, 0)
    ∧ (1, 0, 0) ∈ tripleList 4 2 := by
  refine ⟨⟨31, by decide, by decide⟩, by decide, by decide⟩

/-- Claim C10: with byte-valued inputs (each channel at most 255), the
four-value channel sum is at most 1020 (no wraparound: the C sum is computed
in `int`), the quotient after division by 4 is at most 255, and storing it
in the 8-bit destination channel truncates nothing: the stored value equals
the quotient exactly. -/
theorem c10_no_overflow (input : Nat → Nat) (b width : Nat) (t : Nat × Nat × Nat)
    (hin : ∀ j, input j ≤ 255) :
    input (srcIdx b width t) + input (srcIdx b width t + b)
      + input (srcIdx b width t + b * width) + input (srcIdx b width t + b * width + b) ≤ 1020
    ∧ (input (srcIdx b width t) + input (srcIdx b width t + b)
        + input (srcIdx b width t + b * width) + input (srcIdx b width t + b * width + b)) / 4 ≤ 255
    ∧ writeVal input b width t
      = (input (srcIdx b width t) + input (srcIdx b width t + b)
          + input (srcIdx b width t + b * width) + input (srcIdx b width t + b * width + b)) / 4 := by
  have h1 := hin (srcIdx b width t)
  have h2 := hin (srcIdx b width t + b)
  have h3 := hin (srcIdx b width t + b * width)
  have h4 := hin (srcIdx b width t + b * width + b)
  refine ⟨by omega, by omega, ?_⟩
  simp only [writeVal]
  omega

/-- Witness for C10 at the all-255 input, grayscale-alpha, width 2. -/
theorem c10_no_overflow_witness :
    (255 : Nat) + 255 + 255 + 255 ≤ 1020
    ∧ ((255 : Nat) + 255 + 255 + 255) / 4 ≤ 255
    ∧ writeVal (fun _ => 255) 2 2 (0, 0, 0) = ((255 : Nat) + 255 + 255 + 255) / 4 :=
  c10_no_overflow (fun _ => 255) 2 2 (0, 0, 0) (fun _ => Nat.le_refl 255)

/-- Claim C2: for every decoded child buffer (byte-valued channels) and every
triple `(h, w, c)` in the loop's iteration domain, the value the pass leaves
at the destination index is exactly the floor of the four-source-channel sum
divided by 4 — for every channel, the alpha channel included (the loop treats
all `c < bytesPerPixel` alike); moreover a uniform 2x2 block with channel
value `v` downsamples to exactly `v`, and a 2x2 block with channel values
0, 0, 0, 3 downsamples to 0, not 1. -/
theorem c2_downsample_value (data input : Nat → Nat) (width height : Nat) (colored : Bool)
    (ow oh h w c : Nat)
    (hh : h < width / 2) (hw : w < width / 2) (hc : c < bytesPerPixel colored)
    (how : ow + width / 2 ≤ width)
    (hbytes : ∀ j, input j ≤ 255) :
    readScaled data ow oh (some input) width height colored
        (targetIdx (bytesPerPixel colored) width ow oh (h, w, c))
      = (input (srcIdx (bytesPerPixel colored) width (h, w, c))
          + input (srcIdx (bytesPerPixel colored) width (h, w, c) + bytesPerPixel colored)
          + input (srcIdx (bytesPerPixel colored) width (h, w, c) + bytesPerPixel colored * width)
          + input (srcIdx (bytesPerPixel colored) width (h, w, c) + bytesPerPixel colored * width
              + bytesPerPixel colored)) / 4
    ∧ (∀ v ≤ 255, writeVal (fun _ => v) (bytesPerPixel colored) width (h, w, c) = v)
    ∧ writeVal
        (fun j => if j = srcIdx (bytesPerPixel colored) width (h, w, c)
            + bytesPerPixel colored * width + bytesPerPixel colored then 3 else 0)
        (bytesPerPixel colored) width (h, w, c) = 0 := by
  have hb2 : 2 ≤ bytesPerPixel colored := by
    cases colored <;> simp [bytesPerPixel]
  have hwidth2 : 2 ≤ width := by omega
  refine ⟨?_, ?_, ?_⟩
  · have hmem : (h, w, c) ∈ tripleList width (bytesPerPixel colored) :=
      mem_tripleList.mpr ⟨hh, hw, hc⟩
    have hlast := foldl_scaleStep_last_write input (bytesPerPixel colored) width ow oh
      (tripleList width (bytesPerPixel colored)) data (h, w, c) hmem
      (fun t2 ht2 heq => by
        rw [targetIdx_inj how ⟨hh, hw, hc⟩ (mem_tripleList.mp ht2) heq])
    have hred : readScaled data ow oh (some input) width height colored
        (targetIdx (bytesPerPixel colored) width ow oh (h, w, c))
        = writeVal input (bytesPerPixel colored) width (h, w, c) := hlast
    rw [hred]
    simp only [writeVal]
    have k1 := hbytes (srcIdx (bytesPerPixel colored) width (h, w, c))
    have k2 := hbytes (srcIdx (bytesPerPixel colored) width (h, w, c) + bytesPerPixel colored)
    have k3 := hbytes (srcIdx (bytesPerPixel colored) width (h, w, c)
      + bytesPerPixel colored * width)
    have k4 := hbytes (srcIdx (bytesPerPixel colored) width (h, w, c)
      + bytesPerPixel colored * width + bytesPerPixel colored)
    omega
  · intro v hv
    simp only [writeVal]
    omega
  · obtain ⟨B, hB⟩ : ∃ B, bytesPerPixel colored * width = B := ⟨_, rfl⟩
    have hB4 : 4 ≤ B := hB ▸ Nat.mul_le_mul hb2 hwidth2
    simp only [writeVal, hB]
    rw [if_neg (by omega), if_neg (by omega), if_neg (by omega)]
    norm_num

/-- Witness for C2: grayscale-alpha, width = height = 2, child buffer
`j % 7`, output pixel (0,0), channel 0: the four sources are 0, 2, 4, 6 and
the written value is (0+2+4+6)/4 = 3. -/
theorem c2_downsample_value_witness :
    readScaled zeroData 0 0 (some (fun j => j % 7)) 2 2 false
      (targetIdx 2 2 0 0 (0, 0, 0)) = 3 := by
  have h := c2_downsample_value zeroData (fun j => j % 7) 2 2 false 0 0 0 0 0
    (by decide) (by decide) (by decide) (by decide)
    (fun j => le_trans (le_of_lt (Nat.mod_lt j (by norm_num))) (by norm_num))
  exact h.1.trans (by decide)

/-- Lookup in a mapped range evaluates the mapped function. -/
theorem getD_range_map {α : Type} (f : Nat → α) (d : α) (n m : Nat) (h : m < n) :
    ((List.range n).map f).getD m d = f m := by
  rw [List.getD_eq_getElem?_getD, List.getElem?_map]
  simp [List.getElem?_range, h]

/-- Claim C6: encoding a raster buffer and decoding the file back with the
same width, height and format succeeds (validation passes) and returns a
buffer that agrees byte for byte with the original over the whole
allocation of `bytesPerPixel * width * height` bytes. -/
theorem c6_roundtrip (data : Nat → Nat) (width height : Nat) (colored : Bool) (j : Nat)
    (hj : j < bytesPerPixel colored * width * height) :
    ∃ out, read (write data width height colored) width height colored = some out
      ∧ out j = data j := by
  have hq : 0 < bytesPerPixel colored * width := by
    rcases Nat.eq_zero_or_pos (bytesPerPixel colored * width) with h0 | hpos
    · rw [h0, Nat.zero_mul] at hj
      exact absurd hj (Nat.not_lt_zero j)
    · exact hpos
  have hj2 : j < height * (bytesPerPixel colored * width) := by
    rw [Nat.mul_comm height (bytesPerPixel colored * width)]
    exact hj
  have hdiv : j / (bytesPerPixel colored * width) < height :=
    (Nat.div_lt_iff_lt_mul hq).mpr hj2
  have hmod : j % (bytesPerPixel colored * width) < bytesPerPixel colored * width :=
    Nat.mod_lt j hq
  have hcond : ¬((write data width height colored).width ≠ width
      ∨ (write data width height colored).height ≠ height
      ∨ (write data width height colored).bitDepth ≠ 8
      ∨ (write data width height colored).colorType ≠ colorTypeOf colored) := by
    simp [write]
  refine ⟨fun j2 => ((write data width height colored).rows.getD
      (j2 / (bytesPerPixel colored * width)) []).getD
      (j2 % (bytesPerPixel colored * width)) 0, ?_, ?_⟩
  · simp only [read]
    rw [if_neg hcond]
  · show ((write data width height colored).rows.getD
        (j / (bytesPerPixel colored * width)) []).getD
        (j % (bytesPerPixel colored * width)) 0 = data j
    have hrows : (write data width height colored).rows
        = (List.range height).map (fun i =>
            (List.range (bytesPerPixel colored * width)).map fun k =>
              data (bytesPerPixel colored * i * width + k)) := rfl
    rw [hrows, getD_range_map _ _ _ _ hdiv, getD_range_map _ _ _ _ hmod]
    congr 1
    rw [Nat.mul_right_comm]
    exact Nat.div_add_mod j (bytesPerPixel colored * width)

/-- Witness for C6: a 1x1 grayscale-alpha buffer round-trips; byte 1 of the
decoded buffer equals byte 1 of the original. -/
theorem c6_roundtrip_witness :
    ∃ out, read (write (fun j => j + 3) 1 1 false) 1 1 false = some out
      ∧ out 1 = 4 :=
  c6_roundtrip (fun j => j + 3) 1 1 false 1 (by decide)

end MinedMap.PNG

namespace MinedMap.NBT

/-- Claim C8: constructing a `DoubleTag` performs one fixed-size read of
exactly 8 bytes: when at least 8 bytes remain it succeeds, captures exactly
8 bytes and advances the cursor by exactly 8 (no other consumption); when
fewer than 8 bytes remain it fails. -/
theorem c8_doubletag_read (buf : Buffer) :
    (buf.pos + 8 ≤ buf.data.length →
      ∃ t buf2, DoubleTag.construct buf = some (t, buf2)
        ∧ buf2.pos = buf.pos + 8 ∧ buf2.data = buf.data ∧ t.ptr.length = 8)
    ∧ (buf.data.length < buf.pos + 8 → DoubleTag.construct buf = none) := by
  constructor
  · intro h
    have hg : buf.get 8 = some ((buf.data.drop buf.pos).take 8, ⟨buf.data, buf.pos + 8⟩) := by
      unfold Buffer.get
      rw [if_pos h]
    refine ⟨⟨(buf.data.drop buf.pos).take 8⟩, ⟨buf.data, buf.pos + 8⟩, ?_, rfl, rfl, ?_⟩
    · unfold DoubleTag.construct
      rw [hg]
    · simp only [List.length_take, List.length_drop]
      omega
  · intro h
    unfold DoubleTag.construct Buffer.get
    rw [if_neg (by omega)]

/-- Witness for C8 on a 10-byte buffer with the cursor at 0. -/
theorem c8_doubletag_read_witness :
    ∃ t buf2, DoubleTag.construct ⟨List.replicate 10 0, 0⟩ = some (t, buf2)
      ∧ buf2.pos = 0 + 8 ∧ buf2.data = List.replicate 10 0 ∧ t.ptr.length = 8 :=
  (c8_doubletag_read ⟨List.replicate 10 0, 0⟩).1 (by decide)

end MinedMap.NBT
